import Mathlib

/-!
Shallow embedding of `src/sktime/markovprocess/chapman_kolmogorov_validator.py`
(class `ChapmanKolmogorovValidator` and the `cktest` helper).

Conventions of the embedding:
* numpy float arrays are modelled with exact rationals (`ℚ`); `x / 0 = 0` in `ℚ`
  stands in for the NaN that numpy produces on a silent division by zero
  (numpy emits a RuntimeWarning, not an exception, in that case);
* 1-D and 2-D numpy values are distinguished by `NpArr`, because the source
  indexes arrays with Python `None` (`p0[subset]` with `subset = None` is
  `p0[None]`, which *adds a leading axis* instead of selecting), and the shape
  bookkeeping decides whether `np.dot` succeeds;
* operations that make numpy raise (shape mismatch in `np.dot`, assigning a
  non-scalar to a scalar cell, a failed `assert`, an attribute access on
  `None`, fancy indexing out of range) return an `NpErr`;
* the matrix `P0` is stored column-major (a list of its `nsets` columns),
  since the source only ever consumes whole columns `P0[:, i]`; the
  `memberships` matrix is stored row-major exactly as in the source.
-/

namespace CKV

attribute [local semireducible] Rat.mul Rat.inv Rat.add Rat.sub

/-- Exceptions of the Python/numpy fragment exercised by the validator:
`valueError` (shape mismatches in `np.dot`, broadcasting, fancy assignment,
`np.max` of an empty array), `assertionError` (failed `assert` statements),
`attributeError` (attribute access on `None`), `indexError` (fancy indexing
out of range), `otherException` (any other propagating Python exception). -/
inductive NpErr where
  | valueError
  | assertionError
  | attributeError
  | indexError
  | otherException
  deriving DecidableEq

/-- A numpy array value that is either 1-D or 2-D (rational entries).
2-D values produced by the embedded code always have the shape `(1, L)`
(they arise from indexing a 1-D array with `None`). -/
inductive NpArr where
  | one : List ℚ → NpArr
  | two : List (List ℚ) → NpArr
  deriving DecidableEq

instance instDecEqExcept {ε α : Type} [DecidableEq ε] [DecidableEq α] :
    DecidableEq (Except ε α) := fun a b =>
  match a, b with
  | .ok x, .ok y =>
    if h : x = y then .isTrue (by rw [h]) else .isFalse (by simp [h])
  | .error x, .error y =>
    if h : x = y then .isTrue (by rw [h]) else .isFalse (by simp [h])
  | .ok _, .error _ => .isFalse (by simp)
  | .error _, .ok _ => .isFalse (by simp)

/-- Dot product of two equal-length 1-D arrays (the length check is done by
the caller, following `np.dot`). -/
def dotList (a b : List ℚ) : ℚ :=
  (List.zip a b).foldl (fun s p => s + p.1 * p.2) 0

/-- Number of columns of a 2-D array (rows are rectangular in every value the
embedded code builds). -/
def matCols (A : List (List ℚ)) : ℕ := (A.headD []).length

/-- Semantics of `target[i, j] = np.dot(x, y)` for a scalar cell of `target`:
`np.dot` raises `ValueError` when the contracted dimensions disagree, and the
assignment raises when the dot result is not of size 1 (numpy refuses to set a
scalar cell from a non-scalar array).  Cases: 1-Dx1-D needs equal lengths;
1-Dx2-D is vector-matrix (length must equal the row count, result is a row
that must have size 1); 2-Dx1-D is matrix-vector (column count must equal the
vector length, result has one entry per row, so a single row is required);
2-Dx2-D is matrix-matrix (inner dimensions must agree and the product must be
1 by 1). -/
def npDotAssign : NpArr → NpArr → Except NpErr ℚ
  | .one a, .one b =>
    if a.length = b.length then .ok (dotList a b) else .error .valueError
  | .one a, .two B =>
    if a.length = B.length ∧ matCols B = 1 then
      .ok (dotList a (B.map fun r => r.getD 0 0))
    else .error .valueError
  | .two A, .one b =>
    if matCols A = b.length ∧ A.length = 1 then
      .ok (dotList (A.headD []) b)
    else .error .valueError
  | .two A, .two B =>
    if matCols A = B.length ∧ A.length = 1 ∧ matCols B = 1 then
      .ok (dotList (A.headD []) (B.map fun r => r.getD 0 0))
    else .error .valueError

/-- Sum of all entries of a numpy array (`arr.sum()`). -/
def npSum : NpArr → ℚ
  | .one a => a.sum
  | .two A => (A.map List.sum).sum

/-- Elementwise division of an array by a scalar (`arr /= c`); division by
zero models numpy's silent NaN as `0`. -/
def npDivScalar (a : NpArr) (c : ℚ) : NpArr :=
  match a with
  | .one v => .one (v.map (· / c))
  | .two A => .two (A.map fun r => r.map (· / c))

/-- The source's `model.count_model`: carries the `active_set` attribute,
which itself may be the Python value `None` (line 83 checks for it). -/
structure CountModel where
  active_set : Option (List ℕ)

/-- A fitted dynamical model as consumed by the validator (spec section 6):
`n_states`, a stationary distribution over its active states, an optional
`count_model` (the source checks `model.count_model is not None`), and a pure
`propagate` capability.  `propagate` receives whatever array value the caller
built (1-D in the normal path, 2-D when the source indexed with `None`). -/
structure MSM where
  n_states : ℕ
  stationary_distribution : List ℚ
  count_model : Option CountModel
  propagate : NpArr → ℕ → NpArr

/-- A Bayesian posterior: a prior point model plus an ordered sample
ensemble (the source's `BayesianPosterior` with `.prior` and `.samples`). -/
structure Posterior where
  prior : MSM
  samples : List MSM

/-- A model argument is either a plain model or a posterior wrapper; the
source probes with `hasattr(model, 'prior')`. -/
inductive ModelRef where
  | point : MSM → ModelRef
  | posterior : Posterior → ModelRef

/-- The `if hasattr(model, 'prior'): model = model.prior` dance (source lines
72 to 74 and 93 to 94). -/
def resolvePrior : ModelRef → MSM
  | .point m => m
  | .posterior p => p.prior

/-- State held by a `ChapmanKolmogorovValidator` instance: the memberships
matrix (row-major, as in the source), the shape-derived `n_states` and
`nsets`, the stored confidence level `conf` (the base class
`LaggedModelValidator` stores the constructor's `conf` argument; modelled
from the spec, sections 4.4 and the constructor docstring), the bound
reference model, the derived `P0` (stored column-major: entry `j` is the
column `P0[:, j]`), and the full-to-active remap table `_full2active`. -/
structure Validator where
  memberships : List (List ℚ)
  n_states : ℕ
  nsets : ℕ
  conf : ℚ
  test_model : Option MSM
  P0 : List (List ℚ)
  full2active : List ℕ

/-- Tolerance of `np.allclose(x, 1)` with numpy defaults
(`atol = 1e-8`, `rtol = 1e-5`): `|x - 1| <= atol + rtol * |1|`. -/
def npCloseTol : ℚ := 1 / 100000000 + 1 / 100000

/-- Modelled from the spec: `ensure_ndarray(value, ndim=2, dtype=np.float64)`
from `sktime.util` is not under src/; per spec section 4.1 the validator
"accepts a two-dimensional numeric array" and fails otherwise.  A nested list
denotes a two-dimensional numpy array exactly when it is nonempty and
rectangular (numpy builds a 1-D object array from ragged or empty input,
which `ensure_ndarray` then rejects). -/
def isNdim2 (m : List (List ℚ)) : Bool :=
  !m.isEmpty && m.all fun r => r.length = (m.headD []).length

/-- The `memberships` property setter (source lines 59 to 63), at statement
granularity: `ensure_ndarray` may reject the value (state unchanged), then
`n_states, nsets` are set from the shape, then the row-stochasticity
`assert np.allclose(memberships.sum(axis=1), ones)` runs (note that the shape
fields are already updated when the assert fires). -/
def setMemberships (v : Validator) (value : List (List ℚ)) :
    Validator × Option NpErr :=
  if isNdim2 value then
    let v1 := { v with memberships := value, n_states := value.length,
                       nsets := matCols value }
    if value.all (fun r => decide (|r.sum - 1| ≤ npCloseTol)) then (v1, none)
    else (v1, some .assertionError)
  else (v, some .valueError)

/-- Column `j` of `memberships * stationary_distribution[:, None]` before
normalization: entry `s` is `memberships[s, j] * stationary_distribution[s]`. -/
def p0col (M : List (List ℚ)) (pi : List ℚ) (j : ℕ) : List ℚ :=
  List.zipWith (fun r p => r.getD j 0 * p) M pi

/-- `P0 = memberships * stationary[:, None]; P0 /= P0.sum(axis=0)` (source
lines 78 to 79), stored column-major: the list of the `nsets` columns, each
column being the weighted stationary vector divided by its own sum (a
zero-sum column divides by zero: NaN in numpy, `0` entries here). -/
def deriveP0 (M : List (List ℚ)) (pi : List ℚ) : List (List ℚ) :=
  (List.range (matCols M)).map fun j =>
    let c := p0col M pi j
    c.map (· / c.sum)

/-- Largest entry of a list of naturals (`np.max`; the caller checks
nonemptiness, since `np.max` of an empty array raises). -/
def listMax (a : List ℕ) : ℕ := a.foldl max 0

/-- The remap table: `np.zeros(np.max(active_set) + 1)` followed by the fancy
assignment `_full2active[active_set] = np.arange(n_states)` (source lines 86
to 87).  Fancy assignment writes position `active_set[k] := k`, later writes
winning on duplicates, which the left fold reproduces. -/
def buildFull2Active (active_set : List ℕ) (n_states : ℕ) : List ℕ :=
  (List.zip active_set (List.range n_states)).foldl
    (fun t p => t.set p.1 p.2) (List.replicate (listMax active_set + 1) 0)

/-- The active set the binding step uses (source lines 82 to 84): the count
model's `active_set`, or `np.arange(n_states)` when that attribute is `None`;
`[]` marks the (error) case of a missing count model. -/
def boundActiveSet (m : MSM) : List ℕ :=
  match m.count_model with
  | some cm => cm.active_set.getD (List.range m.n_states)
  | none => []

/-- The `test_model` property setter (source lines 69 to 87), at statement
granularity so that partially-applied updates on the exception paths are
faithful: unwrap `.prior`; assert the shape match; store the model; derive
`P0` (broadcasting `memberships * stationary[:, None]` requires the vector
length to equal the row count, else numpy raises); read
`count_model.active_set` (an `AttributeError` when `count_model` is `None`
fires only after `P0` was already replaced); default a `None` active set to
`np.arange(n_states)`; `np.max` of an empty active set raises; build the
zeros table; the fancy assignment of `np.arange(n_states)` needs the index
array to have length `n_states`.  Returns the (possibly partially updated)
validator and the exception, if any. -/
def bindTestModel (v : Validator) (model : ModelRef) :
    Validator × Option NpErr :=
  let m := resolvePrior model
  if v.memberships.length = m.n_states then
    if m.stationary_distribution.length = v.memberships.length then
      let v1 := { v with test_model := some m,
                         P0 := deriveP0 v.memberships m.stationary_distribution }
      match m.count_model with
      | none => (v1, some .attributeError)
      | some cm =>
        let a := cm.active_set.getD (List.range m.n_states)
        if a = [] then (v1, some .valueError)
        else
          let v2 := { v1 with full2active := List.replicate (listMax a + 1) 0 }
          if a.length = m.n_states then
            ({ v2 with full2active := buildFull2Active a m.n_states }, none)
          else (v2, some .valueError)
    else (v, some .valueError)
  else (v, some .assertionError)

/-- The value of the variable `subset` inside `_compute_observables` /
`_compute_observables_conf`: the Python value `None`, a 1-D integer array
(the usual `self._full2active[model.count_model.active_set]`), or the 2-D
`(1, L)` integer array that `self._full2active[None]` yields when the count
model exists but its `active_set` attribute is `None`. -/
inductive SubsetVal where
  | none2 : SubsetVal
  | idx : List ℕ → SubsetVal
  | idx2 : List ℕ → SubsetVal
  deriving DecidableEq

/-- Computing `subset` (source lines 95 to 98 and 112 to 115):
`self._full2active[model.count_model.active_set]` when a count model is
present (fancy indexing raises `IndexError` out of range; indexing with
`None` adds a leading axis instead), else the Python value `None`. -/
def subsetOf (full2active : List ℕ) (m : MSM) : Except NpErr SubsetVal :=
  match m.count_model with
  | none => .ok .none2
  | some cm =>
    match cm.active_set with
    | some a =>
      if a.all (· < full2active.length) then
        .ok (.idx (a.map fun f => full2active.getD f 0))
      else .error .indexError
    | none => .ok (.idx2 full2active)

/-- `p0[subset]` (source line 101): selection for an integer-array subset
(indices produced by the remap table are below `n_states`, hence in range for
a well-formed `P0`), and axis insertion for `p0[None]`, which yields the
1 by n matrix whose single row is `p0` (a view, not a copy). -/
def vIndex (p0 : List ℚ) : SubsetVal → NpArr
  | .none2 => .two [p0]
  | .idx l => .one (l.map fun t => p0.getD t 0)
  | .idx2 l => .two [l.map fun t => p0.getD t 0]

/-- `self.memberships[subset, j]` (source lines 106 and 125): for an integer
array this selects column `j` restricted to `subset`; for the Python value
`None` it is `memberships[None, j]`, which inserts a leading axis and indexes
*rows* with `j`, yielding the 1 by nsets matrix whose single row is row `j`
of the memberships matrix (not column `j`); a 2-D integer subset with scalar
`j` yields the corresponding 1 by L matrix of column entries. -/
def mIndexJ (M : List (List ℚ)) (s : SubsetVal) (j : ℕ) : NpArr :=
  match s with
  | .none2 => .two [M.getD j []]
  | .idx l => .one (l.map fun t => (M.getD t []).getD j 0)
  | .idx2 l => .two [l.map fun t => (M.getD t []).getD j 0]

/-- A Python `for` loop collecting one value per element, with exception
propagation: the first raised exception aborts the loop. -/
def exceptMap (f : α → Except NpErr β) : List α → Except NpErr (List β)
  | [] => .ok []
  | x :: xs =>
    match f x with
    | .error e => .error e
    | .ok y =>
      match exceptMap f xs with
      | .error e => .error e
      | .ok ys => .ok (y :: ys)

/-- The body of `_compute_observables` (source lines 89 to 107) as a function
of the validator fields it reads.  `p0 = self.P0[:, i]`; `p0sub = p0[subset]`;
`if subset is not None: p0sub /= p0sub.sum()` (the in-place division acts on
the fresh array that advanced indexing returned, so `P0` is untouched; in the
`subset is None` branch `p0sub` is a view of `P0` but no in-place operation
runs); `pksub = model.propagate(p0sub, mlag)`; then
`pk_on_set[i, j] = np.dot(pksub, self.memberships[subset, j])` for each `j`. -/
def computeObservablesCore (P0 M : List (List ℚ)) (full2active : List ℕ)
    (nsets : ℕ) (model : ModelRef) (mlag : ℕ) :
    Except NpErr (List (List ℚ)) :=
  match subsetOf full2active (resolvePrior model) with
  | .error e => .error e
  | .ok subset =>
    exceptMap (fun i =>
        let p0 := P0.getD i []
        let p0sub := vIndex p0 subset
        let p0sub := if subset ≠ .none2 then npDivScalar p0sub (npSum p0sub)
                     else p0sub
        let pksub := (resolvePrior model).propagate p0sub mlag
        exceptMap (fun j => npDotAssign pksub (mIndexJ M subset j))
          (List.range nsets))
      (List.range nsets)

/-- `_compute_observables(self, model, mlag)` reading its inputs from the
validator instance. -/
def computeObservables (v : Validator) (model : ModelRef) (mlag : ℕ) :
    Except NpErr (List (List ℚ)) :=
  computeObservablesCore v.P0 v.memberships v.full2active v.nsets model mlag

/-- `_compute_observables` together with the validator state after the call.
The method writes no attribute of `self`; its only in-place array operation,
`p0sub /= p0sub.sum()`, runs exactly when `subset` is an integer array, in
which case `p0sub = p0[subset]` is a fresh array produced by advanced
indexing (a copy, not a view of `P0`); in the `subset is None` branch `p0sub`
is a view of `P0` but the renormalization is skipped, so no call path mutates
`P0`, `memberships` or `_full2active`. -/
def computeObservablesState (v : Validator) (model : ModelRef) (mlag : ℕ) :
    Except NpErr (List (List ℚ)) × Validator :=
  (computeObservables v model mlag, v)

/-- The body of `_compute_observables_conf` (source lines 110 to 128):
`subset` from `model.prior.count_model`; per set `i` the restricted starting
distribution is renormalized *unconditionally* (line 122); each sample model
propagates it; per cell `(i, j)` the per-sample dots are collected and
reduced by `confidence_interval(pk_on_set_samples, conf=self.conf)` — note
the stored `self.conf` is used there, not the method's `conf` parameter.
The two result matrices of lower and upper bounds are built cell by cell. -/
def computeObservablesConf (v : Validator) (model : Posterior) (mlag : ℕ)
    (conf : ℚ) (confidence_interval : List ℚ → ℚ → ℚ × ℚ) :
    Except NpErr (List (List ℚ) × List (List ℚ)) :=
  match subsetOf v.full2active model.prior with
  | .error e => .error e
  | .ok subset =>
    match exceptMap (fun i =>
        let p0 := v.P0.getD i []
        let p0sub := vIndex p0 subset
        let p0sub := npDivScalar p0sub (npSum p0sub)
        let pksubSamples := model.samples.map fun m => m.propagate p0sub mlag
        exceptMap (fun j =>
            match exceptMap
                (fun pksub => npDotAssign pksub (mIndexJ v.memberships subset j))
                pksubSamples with
            | .error e => .error e
            | .ok arr => .ok (confidence_interval arr v.conf))
          (List.range v.nsets))
      (List.range v.nsets) with
    | .error e => .error e
    | .ok cells => .ok (cells.map (List.map Prod.fst), cells.map (List.map Prod.snd))

/-- The spec's description of the uncertainty aggregation (spec section 4.4):
identical to `computeObservablesConf` except that the per-cell sample array
is reduced at the *given* confidence level, i.e. the `conf` parameter is used
where the source reads `self.conf`. -/
def predictWithConfidenceSpec (v : Validator) (model : Posterior) (mlag : ℕ)
    (conf : ℚ) (confidence_interval : List ℚ → ℚ → ℚ × ℚ) :
    Except NpErr (List (List ℚ) × List (List ℚ)) :=
  match subsetOf v.full2active model.prior with
  | .error e => .error e
  | .ok subset =>
    match exceptMap (fun i =>
        let p0 := v.P0.getD i []
        let p0sub := vIndex p0 subset
        let p0sub := npDivScalar p0sub (npSum p0sub)
        let pksubSamples := model.samples.map fun m => m.propagate p0sub mlag
        exceptMap (fun j =>
            match exceptMap
                (fun pksub => npDotAssign pksub (mIndexJ v.memberships subset j))
                pksubSamples with
            | .error e => .error e
            | .ok arr => .ok (confidence_interval arr conf))
          (List.range v.nsets))
      (List.range v.nsets) with
    | .error e => .error e
    | .ok cells => .ok (cells.map (List.map Prod.fst), cells.map (List.map Prod.snd))

/-- `np.eye(n)`: the identity membership matrix, each state its own
singleton set. -/
def eye (n : ℕ) : List (List ℚ) :=
  (List.range n).map fun i => (List.range n).map fun j =>
    if i = j then 1 else 0

/-- Outcome of `test_model.pcca(nsets)` (an external capability, spec
section 6): a memberships matrix, a `NotImplementedError`, or any other
exception. -/
inductive PccaResult where
  | ok : List (List ℚ) → PccaResult
  | notImplemented : PccaResult
  | otherError : PccaResult

/-- The memberships-resolution step of `cktest` (source lines 174 to 180):
`try: if memberships is None: memberships = test_model.pcca(nsets).memberships
except NotImplementedError: memberships = np.eye(test_model.n_states)`.
Supplied memberships are kept; a `NotImplementedError` from `pcca` is caught
and replaced by the identity membership matrix; any other exception
propagates. -/
def cktestMemberships (memberships? : Option (List (List ℚ)))
    (pcca : ℕ → PccaResult) (nsets n_states : ℕ) :
    Except NpErr (List (List ℚ)) :=
  match memberships? with
  | some m => .ok m
  | none =>
    match pcca nsets with
    | .ok m => .ok m
    | .notImplemented => .ok (eye n_states)
    | .otherError => .error .otherException

/-! Concrete scenarios used by the theorems below. -/

/-- A freshly constructed validator before `__init__` runs the setters
(confidence level from the constructor default `conf=0.95`). -/
def vInit : Validator :=
  { memberships := [], n_states := 0, nsets := 0, conf := 19/20,
    test_model := none, P0 := [], full2active := [] }

/-- A two-state reference model with identity dynamics (`propagate` returns
its input unchanged), uniform stationary distribution and full active set. -/
def mC1 : MSM :=
  { n_states := 2, stationary_distribution := [1/2, 1/2],
    count_model := some ⟨some [0, 1]⟩, propagate := fun a _ => a }

/-- Validator after `memberships = [[1,0],[0,1]]` (a hard partition of two
states into two sets). -/
def vMemC1 : Validator := (setMemberships vInit [[1, 0], [0, 1]]).1

/-- Hard-partition validator bound to the identity-dynamics reference model. -/
def vC1 : Validator := (bindTestModel vMemC1 (.point mC1)).1

/-- An evaluated model with identity dynamics that declares no count model
(`model.count_model is None`), exercising the no-remapping branch. -/
def mNoCount : MSM :=
  { n_states := 2, stationary_distribution := [1/2, 1/2],
    count_model := none, propagate := fun a _ => a }

/-- An evaluated model restricted to full-space state 1 only: its active-set
intersection with set 0 of the hard partition carries zero probability mass. -/
def mSub1 : MSM :=
  { n_states := 1, stationary_distribution := [1],
    count_model := some ⟨some [1]⟩, propagate := fun a _ => a }

/-- Validator after `memberships = [[1,0],[1,0]]`: row-stochastic (both rows
sum to 1) but column 1 is identically zero. -/
def vMemC2 : Validator := (setMemberships vInit [[1, 0], [1, 0]]).1

/-- One-state/one-set reference model with identity dynamics, for the
confidence-interval scenario. -/
def mC5 : MSM :=
  { n_states := 1, stationary_distribution := [1],
    count_model := some ⟨some [0]⟩, propagate := fun a _ => a }

/-- Validator with `memberships = [[1]]` bound to `mC5`; its stored
confidence level is the constructor default 0.95. -/
def vC5 : Validator := (bindTestModel (setMemberships vInit [[1]]).1 (.point mC5)).1

/-- Posterior wrapper around `mC5` with a single sample. -/
def postC5 : Posterior := { prior := mC5, samples := [mC5] }

/-- A confidence-interval routine that reports the level it was handed, used
to observe which confidence level the code passes down. -/
def ciLevel : List ℚ → ℚ → ℚ × ℚ := fun _ level => (level, level)

/-! General helper lemmas about the list operations of the embedding. -/

theorem sum_map_div (l : List ℚ) (c : ℚ) : (l.map (· / c)).sum = l.sum / c := by
  induction l with
  | nil => simp
  | cons x xs ih => simp [ih, add_div]

theorem getD_set_ne : ∀ (l : List ℕ) (i j x d : ℕ), i ≠ j →
    (l.set i x).getD j d = l.getD j d := by
  intro l
  induction l with
  | nil => intro i j x d _; rfl
  | cons a t ih =>
    intro i j x d hij
    cases i with
    | zero =>
      cases j with
      | zero => exact absurd rfl hij
      | succ j => rfl
    | succ i =>
      cases j with
      | zero => rfl
      | succ j => exact ih i j x d (fun h => hij (by rw [h]))

theorem getD_set_self_default : ∀ (l : List ℕ) (i x : ℕ),
    (l.set i x).getD i x = x := by
  intro l
  induction l with
  | nil => intro i x; rfl
  | cons a t ih =>
    intro i x
    cases i with
    | zero => rfl
    | succ i => exact ih i x

theorem replicate_getD_zero : ∀ (n i : ℕ), (List.replicate n 0).getD i 0 = 0 := by
  intro n
  induction n with
  | zero => intro i; rfl
  | succ n ih =>
    intro i
    cases i with
    | zero => rfl
    | succ i => exact ih i

theorem foldl_set_getD_ne :
    ∀ (ps : List (ℕ × ℕ)) (t : List ℕ) (i d : ℕ), (∀ p ∈ ps, p.1 ≠ i) →
    (ps.foldl (fun t p => t.set p.1 p.2) t).getD i d = t.getD i d := by
  intro ps
  induction ps with
  | nil => intro t i d _; rfl
  | cons q qs ih =>
    intro t i d h
    rw [List.foldl_cons, ih _ i d (fun p hp => h p (List.mem_cons_of_mem q hp)),
      getD_set_ne _ _ _ _ _ (h q (List.mem_cons_self q qs))]

theorem foldl_set_length :
    ∀ (ps : List (ℕ × ℕ)) (t : List ℕ),
    (ps.foldl (fun t p => t.set p.1 p.2) t).length = t.length := by
  intro ps
  induction ps with
  | nil => intro t; rfl
  | cons q qs ih => intro t; rw [List.foldl_cons, ih, List.length_set]

theorem foldl_max_init_le : ∀ (l : List ℕ) (init : ℕ), init ≤ l.foldl max init := by
  intro l
  induction l with
  | nil => intro init; exact Nat.le_refl init
  | cons a t ih =>
    intro init
    exact Nat.le_trans (Nat.le_max_left init a) (ih (max init a))

theorem le_listMax_general : ∀ (l : List ℕ) (a init : ℕ), a ∈ l →
    a ≤ l.foldl max init := by
  intro l
  induction l with
  | nil => intro a init h; exact absurd h (List.not_mem_nil a)
  | cons x t ih =>
    intro a init h
    rw [List.foldl_cons]
    rcases List.mem_cons.1 h with h1 | h2
    · subst h1
      exact Nat.le_trans (Nat.le_max_right init a) (foldl_max_init_le t _)
    · exact ih a _ h2

theorem le_listMax (l : List ℕ) (a : ℕ) (h : a ∈ l) : a ≤ listMax l :=
  le_listMax_general l a 0 h

theorem buildFull2Active_length (A : List ℕ) (n : ℕ) :
    (buildFull2Active A n).length = listMax A + 1 := by
  unfold buildFull2Active
  rw [foldl_set_length, List.length_replicate]

/-- Positions of the remap table that are not in the active set keep their
zero initialization. -/
theorem buildFull2Active_getD_not_mem (A : List ℕ) (n f : ℕ) (hf : f ∉ A) :
    (buildFull2Active A n).getD f 0 = 0 := by
  unfold buildFull2Active
  rw [foldl_set_getD_ne, replicate_getD_zero]
  intro p hp hpf
  exact hf (hpf ▸ (List.of_mem_zip hp).1)

/-- The first active state is assigned active index 0 by the fancy
assignment (later writes at distinct positions do not disturb it). -/
theorem buildFull2Active_getD_head (a0 : ℕ) (rest : List ℕ) (n : ℕ)
    (hnd : (a0 :: rest).Nodup) :
    (buildFull2Active (a0 :: rest) n).getD a0 0 = 0 := by
  cases n with
  | zero =>
    unfold buildFull2Active
    rw [List.range_zero, List.zip_nil_right, List.foldl_nil, replicate_getD_zero]
  | succ n =>
    unfold buildFull2Active
    rw [List.range_succ_eq_map, List.zip_cons_cons, List.foldl_cons]
    rw [foldl_set_getD_ne, getD_set_self_default]
    intro p hp hpa
    exact (List.nodup_cons.1 hnd).1 (hpa ▸ (List.of_mem_zip hp).1)

theorem exceptMap_ok {α β : Type} (f : α → Except NpErr β) :
    ∀ (l : List α), (∀ x ∈ l, ∃ y, f x = .ok y) →
    ∃ ys, exceptMap f l = .ok ys := by
  intro l
  induction l with
  | nil => exact fun _ => ⟨[], rfl⟩
  | cons x xs ih =>
    intro h
    obtain ⟨y, hy⟩ := h x (List.mem_cons_self x xs)
    obtain ⟨ys, hys⟩ := ih (fun z hz => h z (List.mem_cons_of_mem x hz))
    exact ⟨y :: ys, by rw [exceptMap, hy, hys]⟩

/-- Successful binding stores the resolved model and recomputes `P0` and the
remap table from it (shared characterization of the setter's success path). -/
theorem bind_ok_fields (v : Validator) (model : ModelRef)
    (h : (bindTestModel v model).2 = none) :
    (bindTestModel v model).1.P0
        = deriveP0 v.memberships (resolvePrior model).stationary_distribution ∧
    (bindTestModel v model).1.full2active
        = buildFull2Active (boundActiveSet (resolvePrior model))
            (resolvePrior model).n_states ∧
    (bindTestModel v model).1.test_model = some (resolvePrior model) := by
  unfold bindTestModel at h ⊢
  rcases hcm : (resolvePrior model).count_model with _ | cm
  all_goals simp only [hcm, boundActiveSet] at h ⊢
  · split at h
    · split at h
      · exact absurd h (by simp)
      · exact absurd h (by simp)
    · exact absurd h (by simp)
  · split at h
    case isFalse => exact absurd h (by simp)
    case isTrue h1 =>
      split at h
      case isFalse => exact absurd h (by simp)
      case isTrue h2 =>
        split at h
        case isTrue => exact absurd h (by simp)
        case isFalse h3 =>
          split at h
          case isFalse => exact absurd h (by simp)
          case isTrue h4 =>
            simp only [if_pos h1, if_pos h2, if_neg h3, if_pos h4]
            exact ⟨trivial, trivial, trivial⟩

theorem npDotAssign_one_ok (aq bq : List ℚ) (h : aq.length = bq.length) :
    npDotAssign (.one aq) (.one bq) = .ok (dotList aq bq) := by
  show (if aq.length = bq.length then Except.ok (dotList aq bq)
      else Except.error NpErr.valueError) = Except.ok (dotList aq bq)
  rw [if_pos h]

theorem range_map_getD {α : Type} (f : ℕ → α) (n j : ℕ) (d : α) (hj : j < n) :
    ((List.range n).map f).getD j d = f j := by
  rw [List.getD_eq_getElem?_getD, List.getElem?_map, List.getElem?_range hj]
  rfl

/-! Theorems settling the claims. -/

/-- C1: for a validator with 2 states and 2 sets, memberships
`M = [[1,0],[0,1]]` (a hard partition), and a bound model whose `propagate`
returns its input distribution unchanged (identity dynamics), binding
succeeds and `predict` returns the identity 2 by 2 matrix for every lag
multiple. -/
theorem c1_hard_partition_identity_predict :
    (bindTestModel vMemC1 (.point mC1)).2 = none ∧
    ∀ mlag, computeObservables vC1 (.point mC1) mlag = .ok [[1, 0], [0, 1]] :=
  ⟨by decide, fun _ => rfl⟩

/-- C2 counterexample: the row-stochastic memberships `[[1,0],[1,0]]` are
accepted and the reference model binds without error, yet column 1 of the
derived `P0` sums to 0 (numpy: NaN), not within 1e-6 of 1 — refuting the
claim that every column of `P0` sums to 1 for every bound reference model. -/
theorem c2_p0_column_sum_counterexample :
    (setMemberships vInit [[1, 0], [1, 0]]).2 = none ∧
    (bindTestModel vMemC2 (.point mC1)).2 = none ∧
    ¬ (|((bindTestModel vMemC2 (.point mC1)).1.P0.getD 1 []).sum - 1|
        ≤ 1 / 1000000) :=
  ⟨by decide, by decide, by decide⟩

/-- C2 amended: after a successful bind, `P0` column `j` is the stationary
distribution weighted by membership column `j` and column-normalized, and it
sums to exactly 1 (hence within 1e-6) for every column whose
pre-normalization mass is nonzero. -/
theorem c2_nonzero_mass_column_sums_to_one (v : Validator) (model : ModelRef)
    (j : ℕ) (hok : (bindTestModel v model).2 = none)
    (hj : j < matCols v.memberships)
    (hmass : (p0col v.memberships
        (resolvePrior model).stationary_distribution j).sum ≠ 0) :
    ((bindTestModel v model).1.P0.getD j []).sum = 1 := by
  rw [(bind_ok_fields v model hok).1]
  unfold deriveP0
  rw [range_map_getD _ _ _ _ hj]
  rw [sum_map_div, div_self hmass]

theorem c2_nonzero_mass_column_sums_to_one_witness :
    (bindTestModel vMemC1 (.point mC1)).2 = none ∧
    0 < matCols vMemC1.memberships ∧
    (p0col vMemC1.memberships
        (resolvePrior (.point mC1)).stationary_distribution 0).sum ≠ 0 ∧
    ((bindTestModel vMemC1 (.point mC1)).1.P0.getD 0 []).sum = 1 :=
  ⟨by decide, by decide, by decide,
    c2_nonzero_mass_column_sums_to_one vMemC1 (.point mC1) 0 (by decide)
      (by decide) (by decide)⟩

/-- C3 counterexample: for the hard-partition validator and a model active
only on full-space state 1, the set-0 starting column restricted to the
model's subset has zero total mass, yet `predict` returns a matrix normally
(`ok`, with the zero-divided row; NaN in numpy): no `EmptySubset` error is
raised and the zero-sum normalization is not guarded. -/
theorem c3_zero_mass_returns_ok_counterexample :
    subsetOf vC1.full2active mSub1 = .ok (.idx [1]) ∧
    npSum (vIndex (vC1.P0.getD 0 []) (.idx [1])) = 0 ∧
    computeObservables vC1 (.point mSub1) 1 = .ok [[0, 0], [0, 1]] :=
  ⟨by decide, by decide, by decide⟩

/-- C3 amended: in the remapped-subset branch, `_compute_observables`
contains no zero-mass guard at all: whenever the subset indices are in range
and `propagate` is shape-preserving on 1-D inputs, `predict` returns a
matrix (`ok`) — in particular it does so silently when a set's restricted
starting column has zero total mass, dividing by zero (NaN in numpy) instead
of raising any error. -/
theorem c3_predict_never_raises_empty_subset (v : Validator)
    (model : ModelRef) (a : List ℕ) (mlag : ℕ)
    (hcm : (resolvePrior model).count_model = some ⟨some a⟩)
    (hbound : ∀ g ∈ a, g < v.full2active.length)
    (hprop : ∀ (p : List ℚ) (k : ℕ), ∃ q : List ℚ,
        (resolvePrior model).propagate (.one p) k = .one q ∧
        q.length = p.length) :
    ∃ M, computeObservables v model mlag = .ok M := by
  have hall : (a.all fun g => decide (g < v.full2active.length)) = true :=
    List.all_eq_true.2 fun g hg => decide_eq_true (hbound g hg)
  have hsub : subsetOf v.full2active (resolvePrior model)
      = .ok (.idx (a.map fun f => v.full2active.getD f 0)) := by
    unfold subsetOf
    rw [hcm]
    exact if_pos hall
  unfold computeObservables computeObservablesCore
  rw [hsub]
  refine exceptMap_ok _ _ (fun i _ => ?_)
  obtain ⟨q, hq, hlen⟩ := hprop
    (((a.map fun f => v.full2active.getD f 0).map
        fun t => (v.P0.getD i []).getD t 0).map
      (· / ((a.map fun f => v.full2active.getD f 0).map
        fun t => (v.P0.getD i []).getD t 0).sum)) mlag
  show ∃ row, exceptMap (fun j => npDotAssign
      ((resolvePrior model).propagate
        (.one (((a.map fun f => v.full2active.getD f 0).map
            fun t => (v.P0.getD i []).getD t 0).map
          (· / ((a.map fun f => v.full2active.getD f 0).map
            fun t => (v.P0.getD i []).getD t 0).sum))) mlag)
      (mIndexJ v.memberships (.idx (a.map fun f => v.full2active.getD f 0)) j))
      (List.range v.nsets) = .ok row
  rw [hq]
  refine exceptMap_ok _ _ (fun j _ => ?_)
  refine ⟨_, npDotAssign_one_ok q _ ?_⟩
  rw [hlen]
  simp [List.length_map]

theorem c3_predict_never_raises_empty_subset_witness :
    ∃ M, computeObservables vC1 (.point mSub1) 2 = .ok M :=
  c3_predict_never_raises_empty_subset vC1 (.point mSub1) [1] 2 rfl
    (by decide) (fun p _ => ⟨p, rfl, rfl⟩)

/-- C4: evaluating the embedded `_compute_observables` on a model that
declares no count model shows the code raising `ValueError` instead of using
the full `P0` columns: `p0[None]` is the 1 by 2 matrix `[p0]` and
`memberships[None, j]` is *row* `j` reshaped to 1 by 2, so `np.dot` of the
two 1 by 2 matrices fails on the very first cell — the claimed no-remapping
prediction never happens. -/
theorem c4_none_count_model_raises_valueerror :
    computeObservables vC1 (.point mNoCount) 1 = .error .valueError := by
  decide

/-- C5 counterexample: with a confidence-interval routine that reports the
level it receives, calling the uncertainty aggregation with confidence level
1/2 on a validator whose stored level is 19/20 yields cells carrying 19/20 —
the level given per call is not the one used. -/
theorem c5_conf_argument_ignored_counterexample :
    computeObservablesConf vC5 postC5 1 (1 / 2) ciLevel
      = .ok ([[19 / 20]], [[19 / 20]]) ∧
    computeObservablesConf vC5 postC5 1 (1 / 2) ciLevel
      ≠ .ok ([[1 / 2]], [[1 / 2]]) :=
  ⟨by decide, by decide⟩

/-- C5 amended: each cell's per-sample array is reduced to a confidence
interval at the validator's *stored* level `self.conf`; the `conf` argument
of `_compute_observables_conf` is ignored (the result is the spec's
described computation evaluated at `self.conf`, independent of the argument). -/
theorem c5_reduces_at_stored_conf (v : Validator) (model : Posterior)
    (mlag : ℕ) (conf1 conf2 : ℚ) (ci : List ℚ → ℚ → ℚ × ℚ) :
    computeObservablesConf v model mlag conf1 ci
      = predictWithConfidenceSpec v model mlag v.conf ci ∧
    computeObservablesConf v model mlag conf1 ci
      = computeObservablesConf v model mlag conf2 ci :=
  ⟨rfl, rfl⟩

/-- C6: a successful reassignment of the reference model stores the resolved
model and recomputes both `P0` and the full-to-active remap table from that
model (and the memberships) in the same operation — the resulting fields do
not depend on the previously stored `P0`, remap table or model, so a
prediction made after reassignment never sees the prior model's tables. -/
theorem c6_bind_recomputes_p0_and_remap (v : Validator) (model : ModelRef)
    (h : (bindTestModel v model).2 = none) :
    (bindTestModel v model).1.P0
      = deriveP0 v.memberships (resolvePrior model).stationary_distribution ∧
    (bindTestModel v model).1.full2active
      = buildFull2Active (boundActiveSet (resolvePrior model))
          (resolvePrior model).n_states ∧
    (bindTestModel v model).1.test_model = some (resolvePrior model) :=
  bind_ok_fields v model h

theorem c6_bind_recomputes_p0_and_remap_witness :
    (bindTestModel vMemC1 (.point mC1)).1.P0
      = deriveP0 vMemC1.memberships
          (resolvePrior (.point mC1)).stationary_distribution ∧
    (bindTestModel vMemC1 (.point mC1)).1.full2active
      = buildFull2Active (boundActiveSet (resolvePrior (.point mC1)))
          (resolvePrior (.point mC1)).n_states ∧
    (bindTestModel vMemC1 (.point mC1)).1.test_model
      = some (resolvePrior (.point mC1)) :=
  c6_bind_recomputes_p0_and_remap vMemC1 (.point mC1) (by decide)

/-- C8: `predict` is a pure function of the validator's stored `P0`,
memberships, remap table and `nsets` — two validators agreeing on those
fields give identical results, the call leaves the validator state exactly
as it was, and an immediately repeated call returns the same matrix. -/
theorem c8_predict_reads_only_derived_state (v w : Validator)
    (model : ModelRef) (mlag : ℕ) (h1 : v.P0 = w.P0)
    (h2 : v.memberships = w.memberships) (h3 : v.full2active = w.full2active)
    (h4 : v.nsets = w.nsets) :
    computeObservables v model mlag = computeObservables w model mlag ∧
    computeObservablesState v model mlag = (computeObservables v model mlag, v) ∧
    (computeObservablesState (computeObservablesState v model mlag).2
        model mlag).1
      = (computeObservablesState v model mlag).1 := by
  refine ⟨?_, rfl, rfl⟩
  unfold computeObservables
  rw [h1, h2, h3, h4]

theorem c8_predict_reads_only_derived_state_witness :
    computeObservables vC1 (.point mC1) 1 = computeObservables vC1 (.point mC1) 1 ∧
    computeObservablesState vC1 (.point mC1) 1
      = (computeObservables vC1 (.point mC1) 1, vC1) ∧
    (computeObservablesState (computeObservablesState vC1 (.point mC1) 1).2
        (.point mC1) 1).1
      = (computeObservablesState vC1 (.point mC1) 1).1 :=
  c8_predict_reads_only_derived_state vC1 vC1 (.point mC1) 1 rfl rfl rfl rfl

/-- C9: when no memberships are supplied and the model's metastable
decomposition raises `NotImplementedError`, `cktest` substitutes the
identity membership matrix of size `n_states` and proceeds instead of
propagating the error. -/
theorem c9_pcca_fallback_identity (pcca : ℕ → PccaResult)
    (nsets n_states : ℕ) (h : pcca nsets = .notImplemented) :
    cktestMemberships none pcca nsets n_states = .ok (eye n_states) := by
  unfold cktestMemberships
  rw [h]

theorem c9_pcca_fallback_identity_witness :
    cktestMemberships none (fun _ => .notImplemented) 4 2 = .ok (eye 2) :=
  c9_pcca_fallback_identity (fun _ => .notImplemented) 4 2 rfl

/-- C7: setting a memberships matrix that is not two-dimensional or has a
row whose sum is not 1 within the `np.allclose` tolerance raises (the
`InvalidMembership` failure of the spec, an `AssertionError` or
`ensure_ndarray` rejection in the source); on acceptance the validator
exposes `n_states` as the row count and `nsets` as the column count. -/
theorem c7_memberships_validation (v : Validator) (value : List (List ℚ)) :
    ((isNdim2 value = false ∨ ∃ r ∈ value, ¬ (|r.sum - 1| ≤ npCloseTol)) →
      (setMemberships v value).2 ≠ none) ∧
    ((setMemberships v value).2 = none →
      (setMemberships v value).1.memberships = value ∧
      (setMemberships v value).1.n_states = value.length ∧
      (setMemberships v value).1.nsets = matCols value) := by
  unfold setMemberships
  rcases hnd : isNdim2 value with _ | _
  · rw [if_neg Bool.false_ne_true]
    exact ⟨fun _ => by simp, fun h => absurd h (by simp)⟩
  · rw [if_pos rfl]
    rcases hall : value.all (fun r => decide (|r.sum - 1| ≤ npCloseTol))
      with _ | _
    · rw [if_neg Bool.false_ne_true]
      exact ⟨fun _ => by simp, fun h => absurd h (by simp)⟩
    · rw [if_pos rfl]
      constructor
      · intro hbad
        rcases hbad with h1 | ⟨r, hr, hle⟩
        · exact Bool.noConfusion h1
        · exact absurd (of_decide_eq_true (List.all_eq_true.1 hall r hr)) hle
      · exact fun _ => ⟨rfl, rfl, rfl⟩

theorem c7_memberships_validation_witness :
    (setMemberships vInit [[3]]).2 ≠ none ∧
    (setMemberships vInit [[1, 0], [0, 1]]).1.n_states = 2 :=
  ⟨(c7_memberships_validation vInit [[3]]).1
      (Or.inr ⟨[3], by decide, by decide⟩),
    ((c7_memberships_validation vInit [[1, 0], [0, 1]]).2 (by decide)).2.1⟩

/-- C10: after binding a reference model whose active set is `A`, every
full-space index `f` up to `max(A)` that is not in `A` keeps the zero the
remap table was initialized with — the same active index 0 that the first
active state is assigned — and predicting with a model whose declared active
set contains such an `f` succeeds (`subset` is computed without any error),
silently remapping `f` to active index 0. -/
theorem c10_silent_remap_to_zero (u : Validator) (model0 : ModelRef)
    (A l : List ℕ) (f : ℕ) (m : MSM)
    (hok : (bindTestModel u model0).2 = none)
    (hA : (resolvePrior model0).count_model = some ⟨some A⟩)
    (hnd : A.Nodup) (hfmax : f ≤ listMax A) (hf : f ∉ A)
    (hm : m.count_model = some ⟨some l⟩) (hfl : f ∈ l)
    (hl : ∀ g ∈ l, g ≤ listMax A) :
    (bindTestModel u model0).1.full2active.getD f 0 = 0 ∧
    (bindTestModel u model0).1.full2active.getD (A.headD 0) 0 = 0 ∧
    subsetOf (bindTestModel u model0).1.full2active m
      = .ok (.idx (l.map fun g =>
          (bindTestModel u model0).1.full2active.getD g 0)) := by
  have htab : (bindTestModel u model0).1.full2active
      = buildFull2Active A (resolvePrior model0).n_states := by
    rw [(bind_ok_fields u model0 hok).2.1]
    unfold boundActiveSet
    rw [hA]
    rfl
  rw [htab]
  refine ⟨buildFull2Active_getD_not_mem A _ f hf, ?_, ?_⟩
  · cases A with
    | nil =>
      unfold buildFull2Active
      rw [List.zip_nil_left, List.foldl_nil]
      exact replicate_getD_zero _ _
    | cons a0 rest => exact buildFull2Active_getD_head a0 rest _ hnd
  · unfold subsetOf
    rw [hm]
    refine if_pos (List.all_eq_true.2 fun g hg => decide_eq_true ?_)
    rw [buildFull2Active_length]
    exact Nat.lt_succ_of_le (hl g hg)

/-- Reference model with active set `[1, 2]` (full-space index 0 unused). -/
def mC10ref : MSM :=
  { n_states := 2, stationary_distribution := [1/2, 1/2],
    count_model := some ⟨some [1, 2]⟩, propagate := fun a _ => a }

/-- Evaluated model declaring active set `[0, 1]`: index 0 lies below
`max([1, 2])` but is not active in the reference. -/
def mC10eval : MSM :=
  { n_states := 2, stationary_distribution := [1/2, 1/2],
    count_model := some ⟨some [0, 1]⟩, propagate := fun a _ => a }

theorem c10_silent_remap_to_zero_witness :
    (bindTestModel vMemC1 (.point mC10ref)).1.full2active.getD 0 0 = 0 ∧
    (bindTestModel vMemC1 (.point mC10ref)).1.full2active.getD
        ([1, 2].headD 0) 0 = 0 ∧
    subsetOf (bindTestModel vMemC1 (.point mC10ref)).1.full2active mC10eval
      = .ok (.idx ([0, 1].map fun g =>
          (bindTestModel vMemC1 (.point mC10ref)).1.full2active.getD g 0)) :=
  c10_silent_remap_to_zero vMemC1 (.point mC10ref) [1, 2] [0, 1] 0 mC10eval
    (by decide) rfl (by decide) (by decide) (by decide) rfl (by decide)
    (by decide)

end CKV
